import Mathlib

/-!
Shallow embedding of the PMAT persistent-memory analysis tool
(src/pmat/pmat_main.c, src/pmat/pmat.h).

The tool shadows every store/flush/fence of the instrumented program with a
cache-simulator / write-buffer state machine and writes "persisted" cache
lines into per-region backing files.  This file embeds the state machine
(`trace_pmem_store`, `do_flush`, `do_writeback`, `_do_fence`,
`write_to_file`), the registered-region and transient tables, the
client-request handlers, the Welford statistics update (`update_stats`), and
the parent half of `simulate_crash`, and proves/refutes the frozen claims
about them.

Machine integers are modelled as `Nat` with explicit `% 2 ^ 64` where the C
code relies on 64-bit wraparound (the dirty mask).  Backing-file contents and
cache-line data are modelled as functions `Nat → Nat` (byte at offset);
indices past the 64-byte line of a cache entry model the heap bytes that sit
after the 64-byte `data` buffer in the C allocation.  Randomness
(`VG_(random)`) is an oracle `rand : Nat → Nat` sampled at a draw counter
threaded through the state.  The fork/exec side effects of `simulate_crash`
are represented as an explicit `CrashEffect` value.
-/

namespace Pmat

/-- Cache line size: `PMAT_CACHELINE_SIZE` is 64 (src/pmat/pmat.h line 15);
`CACHELINE_SIZE` in pmat_main.c is the same line size (spec section 3,
default 64). -/
def CACHELINE_SIZE : Nat := 64

/-- Modelled from the spec: `TRIM_CACHELINE` is defined in pmat_include.h,
which is missing from src/.  Spec section 3: `trim(a) = a & ~(L-1)` with
`L = 64`; on `Nat` this is `a - a % 64`. -/
def TRIM_CACHELINE (a : Nat) : Nat := a - a % CACHELINE_SIZE

/-- Modelled from the spec: `OFFSET_CACHELINE` is defined in pmat_include.h,
which is missing from src/.  Spec section 3: `offset(a) = a & (L-1)`. -/
def OFFSET_CACHELINE (a : Nat) : Nat := a % CACHELINE_SIZE

/-- Modelled from the spec: capacity constants `NUM_CACHE_ENTRIES` and
`NUM_WB_ENTRIES` live in pmat_include.h, missing from src/; spec section 3
says `CacheMax` and `WbMax` are implementation-tunable. -/
structure Config where
  cacheMax : Nat
  wbMax : Nat
deriving Repr, DecidableEq

/-- A registered persistent-memory region (`struct pmat_registered_file`):
`name`, `addr` (base), `size`, plus the shadow of its backing file: the
`mode` passed to `VG_(open)` and the file `content` (byte at offset). -/
structure PmatRegisteredFile where
  name : String
  addr : Nat
  size : Nat
  mode : Nat
  content : Nat → Nat

instance : Inhabited PmatRegisteredFile := ⟨⟨"", 0, 0, 0, fun _ => 0⟩⟩

/-- A cache entry (`struct pmat_cache_entry`): L-aligned `addr`, the 64-bit
per-byte dirty mask `dirtyBits`, and the line `data`.  `data i` for `i ≥ 64`
models the heap bytes directly after the 64-byte buffer of the C allocation
(they are 0 unless an out-of-bounds `memcpy` writes them).  The
`lastPendingStore` stacktrace handle is not modelled (no claim mentions it). -/
structure PmatCacheEntry where
  addr : Nat
  dirtyBits : Nat
  data : Nat → Nat

instance : Inhabited PmatCacheEntry := ⟨⟨0, 0, fun _ => 0⟩⟩

/-- A write-buffer entry (`struct pmat_write_buffer_entry`): the cache entry
handed over by a flush plus the flushing thread id. -/
structure PmatWriteBufferEntry where
  entry : PmatCacheEntry
  tid : Nat

instance : Inhabited PmatWriteBufferEntry := ⟨⟨default, 0⟩⟩

/-- The tool state (`struct pmem_ops` plus the shadowed file system).
`crashChecks` and `warnings` are ghost observation counters: `crashChecks`
counts invocations of `maybe_simulate_crash`, `warnings` counts emitted
warnings; `randCtr` is the position in the random oracle.  The OSets are
modelled as lists keyed by address (cache, write buffer, regions) resp. by
the (addr, size) pair (transients). -/
structure PmatState where
  pmat_registered_files : List PmatRegisteredFile
  pmat_cache_entries : List PmatCacheEntry
  pmat_write_buffer_entries : List PmatWriteBufferEntry
  pmat_transient_addresses : List (Nat × Nat)
  pmat_num_verifications : Nat
  pmat_num_bad_verifications : Nat
  pmat_should_verify : Bool
  pmat_verifier : Option String
  pmat_mean_verification_time : ℚ
  pmat_ssd_verification_time : ℚ
  pmat_min_verification_time : ℚ
  pmat_max_verification_time : ℚ
  crashChecks : Nat
  warnings : Nat
  randCtr : Nat

/-- Initial state after `pmat_post_clo_init` (pmat_main.c lines 1886-1903):
empty tables, zeroed statistics, `pmat_should_verify = True`; no verifier
configured (the `--pmat-verifier` option is absent by default). -/
def initState : PmatState :=
  { pmat_registered_files := []
    pmat_cache_entries := []
    pmat_write_buffer_entries := []
    pmat_transient_addresses := []
    pmat_num_verifications := 0
    pmat_num_bad_verifications := 0
    pmat_should_verify := true
    pmat_verifier := none
    pmat_mean_verification_time := 0
    pmat_ssd_verification_time := 0
    pmat_min_verification_time := 0
    pmat_max_verification_time := 0
    crashChecks := 0
    warnings := 0
    randCtr := 0 }

/-- One draw from the random oracle (`VG_(random)(NULL)`). -/
def draw (rand : Nat → Nat) (s : PmatState) : Nat × PmatState :=
  (rand s.randCtr, { s with randCtr := s.randCtr + 1 })

/-- Address-containment test of `find_file_by_addr` (pmat_main.c lines
161-185): an address matches a region when `base ≤ a ≤ base + size` (the
comparator returns 0 also at `a = base + size`, an authentic off-by-one). -/
def fileContainsAddr (f : PmatRegisteredFile) (a : Nat) : Bool :=
  decide (f.addr ≤ a ∧ a ≤ f.addr + f.size)

/-- `VG_(OSetGen_LookupWithCmp)(pmat_registered_files, ., find_file_by_addr)`. -/
def lookupFileByAddr (s : PmatState) (a : Nat) : Option PmatRegisteredFile :=
  s.pmat_registered_files.find? (fun f => fileContainsAddr f a)

/-- Update the (first) registered region containing address `a`. -/
def updateFirstFile (fs : List PmatRegisteredFile) (a : Nat)
    (upd : PmatRegisteredFile → PmatRegisteredFile) : List PmatRegisteredFile :=
  match fs with
  | [] => []
  | f :: rest =>
    if fileContainsAddr f a then upd f :: rest else f :: updateFirstFile rest a upd

/-- Modelled from the spec: the transient-set comparator
`cmp_pmat_transient_entries` lives in pmat_include.h, missing from src/.
Spec section 4.B gives the lookup point-query semantics: the query range
must fall wholly inside some recorded range. -/
def transientContains (ts : List (Nat × Nat)) (a len : Nat) : Bool :=
  ts.any (fun t => decide (t.1 ≤ a ∧ a + len ≤ t.1 + t.2))

/-- `is_pmem_access` (pmat_main.c lines 194-220): the store address must lie
in a registered region and the store must not be transient. -/
def is_pmem_access (s : PmatState) (addr size : Nat) : Bool :=
  if s.pmat_registered_files.length = 0 then false
  else if (lookupFileByAddr s addr).isSome then
    if s.pmat_transient_addresses.length = 0 then true
    else if transientContains s.pmat_transient_addresses addr size then false
    else true
  else false

/-- Byte `i` of a (little-endian) machine word, as `memcpy` from `&value`
reads it. -/
def valueByte (value i : Nat) : Nat := value / 256 ^ i % 256

/-- The dirty-bit mask of a store:
`((1ULL << size) - 1ULL) << startOffset` as a 64-bit value
(pmat_main.c lines 821 and 831). -/
def dirtyMask (size startOffset : Nat) : Nat :=
  ((2 ^ size - 1) <<< startOffset) % 2 ^ 64

/-- Merge of `write_to_file` (pmat_main.c lines 243-256): the 64 bytes of the
line at file offset `off` are read, bytes with a set dirty bit are replaced
by the entry's data, and the 64 bytes are written back; the net file change
is only at dirty offsets. -/
def mergeCacheline (content : Nat → Nat) (off : Nat) (e : PmatCacheEntry) :
    Nat → Nat :=
  fun j =>
    if off ≤ j ∧ j < off + CACHELINE_SIZE ∧ e.dirtyBits.testBit (j - off) then
      e.data (j - off)
    else content j

/-- The backing-file effect of `write_to_file(entry)` on the region table:
the region containing `entry->entry->addr` gets the entry's dirty bytes
merged at offset `addr - region.base`.  (The source asserts when no region
is found; here the table is then left unchanged.) -/
def filesAfterWrite (fs : List PmatRegisteredFile) (w : PmatWriteBufferEntry) :
    List PmatRegisteredFile :=
  updateFirstFile fs w.entry.addr
    (fun f => { f with content := mergeCacheline f.content (w.entry.addr - f.addr) w.entry })

/-- `write_to_file` (pmat_main.c lines 225-257). -/
def write_to_file (s : PmatState) (w : PmatWriteBufferEntry) : PmatState :=
  { s with pmat_registered_files := filesAfterWrite s.pmat_registered_files w }

/-- Cache lookup by line address (`VG_(OSetGen_Lookup)(pmat_cache_entries, …)`). -/
def lookupCacheEntry (cs : List PmatCacheEntry) (a : Nat) : Option PmatCacheEntry :=
  cs.find? (fun e => e.addr == a)

/-- Cache removal by line address (`VG_(OSetGen_Remove)`). -/
def removeCacheEntry (cs : List PmatCacheEntry) (a : Nat) : List PmatCacheEntry :=
  cs.filter (fun e => e.addr != a)

/-- Write-buffer lookup keyed by the line address of the held entry
(`VG_(OSetGen_Lookup)(pmat_write_buffer_entries, …)` with the wb comparator). -/
def lookupWB (ws : List PmatWriteBufferEntry) (a : Nat) : Option PmatWriteBufferEntry :=
  ws.find? (fun w => w.entry.addr == a)

/-- Write-buffer removal keyed by the line address. -/
def removeWB (ws : List PmatWriteBufferEntry) (a : Nat) : List PmatWriteBufferEntry :=
  ws.filter (fun w => w.entry.addr != a)

/-- The write-then-discard step shared by the collapse branch of
`do_writeback` (lines 1241-1244), its eviction loop (lines 1263-1267) and
the `_do_fence` drain loop (lines 1181-1185): `write_to_file` the entry,
then remove it from the write buffer.  (The `VG_(OSetGen_FreeNode)` calls
release heap nodes and do not change any set.) -/
def drainEntry (st : PmatState) (w : PmatWriteBufferEntry) : PmatState :=
  let st' := write_to_file st w
  { st' with pmat_write_buffer_entries := removeWB st'.pmat_write_buffer_entries w.entry.addr }

/-- The selection loops of the two eviction paths: iterate the set, draw one
random value per element, and collect the elements whose draw satisfies `p`
into the victim list. -/
def selectVictims {α : Type} (rand : Nat → Nat) (p : Nat → Bool)
    (s : PmatState) (es : List α) : List α × PmatState :=
  es.foldl
    (fun acc e =>
      let d := draw rand acc.2
      (if p d.1 then acc.1 ++ [e] else acc.1, d.2))
    ([], s)

/-- `maybe_simulate_crash` (pmat_main.c lines 772-777).  The ghost counter
`crashChecks` counts its invocations; when the guards pass it draws one
random value (`% 100 == 0` decides whether to fork).  The parent-side state
change of an actual `simulate_crash` is modelled separately by
`simulate_crash_parent`, because it depends on external inputs (the child's
wait status and wall time); it never touches the cache, write buffer,
transient table or region contents. -/
def maybe_simulate_crash (rand : Nat → Nat) (s : PmatState) : PmatState :=
  let s := { s with crashChecks := s.crashChecks + 1 }
  if !s.pmat_should_verify ∨ s.pmat_verifier = none ∨
      s.pmat_registered_files.length = 0 then s
  else (draw rand s).2

/-- The collapse step of `do_writeback` (pmat_main.c lines 1224-1245): if a
write-buffer entry for the same line already exists, write it to its
backing file and discard it. -/
def wbCollapse (s : PmatState) (a : Nat) : PmatState :=
  match lookupWB s.pmat_write_buffer_entries a with
  | some exist => drainEntry s exist
  | none => s

/-- The eviction step of `do_writeback` (pmat_main.c lines 1252-1270): if
the write buffer exceeds `NUM_WB_ENTRIES`, pick each entry with probability
1/10 and write-then-discard the picked ones. -/
def wbEvict (cfg : Config) (rand : Nat → Nat) (s : PmatState) : PmatState :=
  if s.pmat_write_buffer_entries.length > cfg.wbMax then
    let sel := selectVictims rand (fun v => v % 10 == 0) s s.pmat_write_buffer_entries
    sel.1.foldl drainEntry sel.2
  else s

/-- `do_writeback` (pmat_main.c lines 1205-1271): remove the entry from the
cache, collapse an existing write-buffer entry for the same line (write it
to its file first), insert the new entry tagged with the running thread id,
and evict a random subset if the buffer now exceeds `NUM_WB_ENTRIES`. -/
def do_writeback (cfg : Config) (rand : Nat → Nat) (tid : Nat)
    (s : PmatState) (entry : PmatCacheEntry) : PmatState :=
  let s1 := { s with pmat_cache_entries := removeCacheEntry s.pmat_cache_entries entry.addr }
  let s2 := wbCollapse s1 entry.addr
  let s3 := { s2 with pmat_write_buffer_entries := ⟨entry, tid⟩ :: s2.pmat_write_buffer_entries }
  wbEvict cfg rand s3

/-- The in-place update of an existing cache entry by a store
(pmat_main.c lines 817-822): copy `size` bytes of the value at
`startOffset` and or the dirty mask in. -/
def storeIntoEntry (startOffset size value : Nat) (e : PmatCacheEntry) :
    PmatCacheEntry :=
  { e with
    data := fun i =>
      if startOffset ≤ i ∧ i < startOffset + size then valueByte value (i - startOffset)
      else e.data i
    dirtyBits := e.dirtyBits ||| dirtyMask size startOffset }

/-- Update the (first) cache entry with address `a` in place. -/
def updateCacheEntry (cs : List PmatCacheEntry) (a : Nat)
    (f : PmatCacheEntry → PmatCacheEntry) : List PmatCacheEntry :=
  match cs with
  | [] => []
  | e :: rest => if e.addr = a then f e :: rest else e :: updateCacheEntry rest a f

/-- The fresh cache entry created by a store to an uncached line
(pmat_main.c lines 824-831): the line is zero-filled (`VG_(memset)`), the
value's bytes are copied at the store offset, and exactly those bits are
dirty.  The backing file is not consulted. -/
def freshEntry (line startOffset size value : Nat) : PmatCacheEntry :=
  { addr := line
    dirtyBits := dirtyMask size startOffset
    data := fun i =>
      if startOffset ≤ i ∧ i < startOffset + size then valueByte value (i - startOffset)
      else 0 }

/-- The eviction step of `trace_pmem_store` (pmat_main.c lines 834-850): if
the cache exceeds `NUM_CACHE_ENTRIES`, pick each entry with probability 1/2
and write each picked one back through `do_writeback`. -/
def cacheEvict (cfg : Config) (rand : Nat → Nat) (tid : Nat) (s : PmatState) :
    PmatState :=
  if s.pmat_cache_entries.length > cfg.cacheMax then
    let sel := selectVictims rand (fun v => v % 2 != 0) s s.pmat_cache_entries
    sel.1.foldl (fun st e => do_writeback cfg rand tid st e) sel.2
  else s

/-- The warnings `trace_pmem_store` emits (pmat_main.c lines 793-809): one
if the store spans a line boundary (`TRIM(addr) ≠ TRIM(addr+size-1)`), one
more if `startOffset > endOffset` (with `endOffset` snapped to 64 when the
store ends exactly on a line boundary).  In both cases the store is still
processed with the full `size` (the `memcpy` is not clamped to the line). -/
def storeWarnings (addr size : Nat) : Nat :=
  (if TRIM_CACHELINE addr ≠ TRIM_CACHELINE (addr + size - 1) then 1 else 0) +
    (if OFFSET_CACHELINE addr >
        (if OFFSET_CACHELINE (addr + size) = 0 then CACHELINE_SIZE
         else OFFSET_CACHELINE (addr + size))
     then 1 else 0)

/-- `trace_pmem_store` (pmat_main.c lines 786-853).  A store to an existing
entry updates it in place and returns at once; only the path that creates a
new entry runs the capacity check and `maybe_simulate_crash`. -/
def trace_pmem_store (cfg : Config) (rand : Nat → Nat) (tid addr size value : Nat)
    (s : PmatState) : PmatState :=
  if !is_pmem_access s addr size then s
  else
    let s := { s with warnings := s.warnings + storeWarnings addr size }
    let startOffset := OFFSET_CACHELINE addr
    let line := TRIM_CACHELINE addr
    match lookupCacheEntry s.pmat_cache_entries line with
    | some _ =>
      { s with pmat_cache_entries :=
          updateCacheEntry s.pmat_cache_entries line (storeIntoEntry startOffset size value) }
    | none =>
      let s :=
        { s with pmat_cache_entries :=
            freshEntry line startOffset size value :: s.pmat_cache_entries }
      maybe_simulate_crash rand (cacheEvict cfg rand tid s)

/-- `_do_fence` (pmat_main.c lines 1163-1188): collect every write-buffer
entry of the calling thread, then write each to its backing file and remove
it. -/
def do_fence_inner (tid : Nat) (s : PmatState) : PmatState :=
  if s.pmat_write_buffer_entries.isEmpty then s
  else
    (s.pmat_write_buffer_entries.filter (fun w => w.tid == tid)).foldl drainEntry s

/-- `do_fence` (pmat_main.c lines 1197-1203): crash check, fence, crash check. -/
def do_fence (rand : Nat → Nat) (tid : Nat) (s : PmatState) : PmatState :=
  maybe_simulate_crash rand (do_fence_inner tid (maybe_simulate_crash rand s))

/-- `do_flush` (pmat_main.c lines 1283-1294): look up only the line
containing `base` (the `size` argument is unused) and write it back if
cached. -/
def do_flush (cfg : Config) (rand : Nat → Nat) (tid : Nat)
    (base size : Nat) (s : PmatState) : PmatState :=
  match lookupCacheEntry s.pmat_cache_entries (TRIM_CACHELINE base) with
  | some e => do_writeback cfg rand tid s e
  | none => s

/-- `trace_pmem_flush` (pmat_main.c lines 1300-1306). -/
def trace_pmem_flush (cfg : Config) (rand : Nat → Nat) (tid addr : Nat)
    (s : PmatState) : PmatState :=
  maybe_simulate_crash rand (do_flush cfg rand tid addr CACHELINE_SIZE s)

/-- `trace_pmem_flush_fence` (pmat_main.c lines 1314-1320). -/
def trace_pmem_flush_fence (cfg : Config) (rand : Nat → Nat) (tid addr : Nat)
    (s : PmatState) : PmatState :=
  maybe_simulate_crash rand
    (do_fence_inner tid (do_flush cfg rand tid addr CACHELINE_SIZE s))

/-- The `PMAT_REGISTER` client request (pmat_main.c lines 1746-1784): reject
a NULL name or a base that is not line-aligned; otherwise open the backing
file with `O_CREAT|O_TRUNC|O_RDWR` and mode `0666`, `ftruncate` it to
`size` (so it holds `size` zero bytes), and insert the region. -/
def pmatRegister (s : PmatState) (name : Option String) (addr size : Nat) :
    PmatState :=
  match name with
  | none => s
  | some nm =>
    if TRIM_CACHELINE addr ≠ addr then s
    else
      { s with pmat_registered_files :=
          ⟨nm, addr, size, 0o666, fun _ => 0⟩ :: s.pmat_registered_files }

/-- The `PMAT_TRANSIENT` client request (pmat_main.c lines 1717-1737): when
at least one region is registered, the request is dropped unless the
address lies in a registered region; when *no* region is registered the
membership check is skipped and the range is inserted.  Duplicate ranges
are suppressed. -/
def pmatTransient (s : PmatState) (a sz : Nat) : PmatState :=
  let proceed : Bool :=
    if s.pmat_registered_files.length > 0 then (lookupFileByAddr s a).isSome
    else true
  if proceed then
    if (a, sz) ∈ s.pmat_transient_addresses then s
    else { s with pmat_transient_addresses := (a, sz) :: s.pmat_transient_addresses }
  else s

/-- Remove the first region containing an address
(`PMAT_UNREGISTER_BY_ADDR`, pmat_main.c lines 1786-1798). -/
def removeFirstFileByAddr (fs : List PmatRegisteredFile) (a : Nat) :
    List PmatRegisteredFile :=
  match fs with
  | [] => []
  | f :: rest => if fileContainsAddr f a then rest else f :: removeFirstFileByAddr rest a

/-- Remove the first region with a given name
(`PMAT_UNREGISTER_BY_NAME`, pmat_main.c lines 1799-1811). -/
def removeFirstFileByName (fs : List PmatRegisteredFile) (nm : String) :
    List PmatRegisteredFile :=
  match fs with
  | [] => []
  | f :: rest => if f.name = nm then rest else f :: removeFirstFileByName rest nm

/-- `PMAT_UNREGISTER_BY_ADDR` handler. -/
def pmatUnregisterByAddr (s : PmatState) (a : Nat) : PmatState :=
  { s with pmat_registered_files := removeFirstFileByAddr s.pmat_registered_files a }

/-- `PMAT_UNREGISTER_BY_NAME` handler. -/
def pmatUnregisterByName (s : PmatState) (nm : String) : PmatState :=
  { s with pmat_registered_files := removeFirstFileByName s.pmat_registered_files nm }

/-- The client-visible and instrumentation-visible operations that drive the
state machine (dispatcher cases of `pmat_handle_client_request` plus the
instrumentation callbacks). -/
inductive Op where
  | opStore (tid addr size value : Nat)
  | opFlush (tid base size : Nat)
  | opFlushFence (tid addr : Nat)
  | opFence (tid : Nat)
  | opRegister (name : String) (addr size : Nat)
  | opRegisterNull (addr size : Nat)
  | opUnregisterByName (name : String)
  | opUnregisterByAddr (addr : Nat)
  | opTransient (addr size : Nat)
  | opCrashEnable
  | opCrashDisable
deriving Repr, DecidableEq

/-- One step of the state machine. `opFlush` is the `DO_FLUSH` client request
(pmat_main.c lines 1817-1821): `do_flush` followed by `maybe_simulate_crash`. -/
def stepOp (cfg : Config) (rand : Nat → Nat) (s : PmatState) : Op → PmatState
  | .opStore tid addr size value => trace_pmem_store cfg rand tid addr size value s
  | .opFlush tid base size =>
      maybe_simulate_crash rand (do_flush cfg rand tid base size s)
  | .opFlushFence tid addr => trace_pmem_flush_fence cfg rand tid addr s
  | .opFence tid => do_fence rand tid s
  | .opRegister nm addr size => pmatRegister s (some nm) addr size
  | .opRegisterNull addr size => pmatRegister s none addr size
  | .opUnregisterByName nm => pmatUnregisterByName s nm
  | .opUnregisterByAddr a => pmatUnregisterByAddr s a
  | .opTransient a sz => pmatTransient s a sz
  | .opCrashEnable => { s with pmat_should_verify := true }
  | .opCrashDisable => { s with pmat_should_verify := false }

/-- A reachable state: the result of running a sequence of operations from
the initial state. -/
def run (cfg : Config) (rand : Nat → Nat) (ops : List Op) : PmatState :=
  ops.foldl (stepOp cfg rand) initState

/-- `update_stats` (pmat_main.c lines 143-148), Welford's online update;
`n` is `pmat_num_verifications` at call time (already incremented for this
sample).  `Double` is modelled as exact rational arithmetic. -/
def update_stats (mean ssd : ℚ) (n : Nat) (x : ℚ) : ℚ × ℚ :=
  let delta1 := x - mean
  let mean2 := mean + delta1 / (n : ℚ)
  let delta2 := x - mean2
  (mean2, ssd + delta1 * delta2)

/-- Apply `update_stats` to each sample in order, incrementing the counter
before each update, as the parent branch of `simulate_crash` does
(pmat_main.c lines 687-689). -/
def welfordRun : List ℚ → ℚ → ℚ → Nat → ℚ × ℚ
  | [], mean, ssd, _ => (mean, ssd)
  | x :: xs, mean, ssd, n =>
    let p := update_stats mean ssd (n + 1) x
    welfordRun xs p.1 p.2 (n + 1)

/-- `Σ x²` over a list of samples. -/
def sumSq (l : List ℚ) : ℚ := (l.map (fun x => x ^ 2)).sum

/-- The child's wait status as the parent sees it (`VKI_WIFEXITED` /
`VKI_WIFSIGNALED`; `weird` is the final `else` branch). -/
inductive WaitOutcome where
  | exited (status : Int)
  | signaled
  | weird
deriving Repr, DecidableEq

/-- The file-system actions of the parent branch of `simulate_crash`:
either the three per-attempt files are deleted, or every registered file is
copied to a suffixed snapshot. -/
inductive CrashEffect where
  | earlyReturn
  | deletedFiles (dump stderrFile stdoutFile : String)
  | copiedFiles (pairs : List (String × String))
deriving Repr, DecidableEq

/-- `PMAT_VERIFICATION_FAILURE` (src/pmat/pmat.h line 49). -/
def PMAT_VERIFICATION_FAILURE : Int := 0xBD

/-- The snapshot name `"%s.%d.%s"` built by `copy_files`
(pmat_main.c line 622). -/
def snapshotName (name : String) (k : Nat) (suffix : String) : String :=
  name ++ "." ++ toString k ++ "." ++ suffix

/-- `copy_files(suffix)` (pmat_main.c lines 617-625): copy each registered
file `name` to `name.<pmat_num_verifications>.<suffix>`. -/
def copy_files (s : PmatState) (suffix : String) : List (String × String) :=
  s.pmat_registered_files.map
    (fun f => (f.name, snapshotName f.name s.pmat_num_verifications suffix))

/-- The statistics half of the parent branch of `simulate_crash`
(pmat_main.c lines 687-692): increment the verification counter, run the
Welford update with the incremented counter, track max and min (with the
source's quirk that a zero minimum is replaced by the current sample). -/
def crashStatsUpdate (s : PmatState) (sec : ℚ) : PmatState :=
  let s := { s with pmat_num_verifications := s.pmat_num_verifications + 1 }
  let p := update_stats s.pmat_mean_verification_time s.pmat_ssd_verification_time
      s.pmat_num_verifications sec
  let s := { s with pmat_mean_verification_time := p.1, pmat_ssd_verification_time := p.2 }
  let s := { s with pmat_max_verification_time := max s.pmat_max_verification_time sec }
  let s := { s with pmat_min_verification_time := min s.pmat_min_verification_time sec }
  if s.pmat_min_verification_time = 0 then { s with pmat_min_verification_time := sec }
  else s

/-- The parent branch of `simulate_crash` (pmat_main.c lines 667-722), given
the elapsed wall time `sec` and the child's wait outcome: increment the
verification counter, update the Welford statistics and min/max, then
classify the outcome.  Exit status `0xBD`/`-0xBD` or any other non-zero
status increments the bad count and snapshots every registered file with
suffix `bad`; status `0` deletes the three per-attempt files; a signal
snapshots with suffix `bad.coredump` (the `weird` branch with
`bad.weird` then hits an assertion). -/
def simulate_crash_parent (s : PmatState) (sec : ℚ) (w : WaitOutcome) :
    PmatState × CrashEffect :=
  if s.pmat_verifier = none then (s, .earlyReturn)
  else if s.pmat_registered_files.length = 0 then (s, .earlyReturn)
  else
    let s := crashStatsUpdate s sec
    match w with
    | .exited status =>
      if status = PMAT_VERIFICATION_FAILURE ∨ status = -PMAT_VERIFICATION_FAILURE then
        ({ s with pmat_num_bad_verifications := s.pmat_num_bad_verifications + 1 },
          .copiedFiles (copy_files s "bad"))
      else if status = 0 then
        (s, .deletedFiles
          ("bad-verification-" ++ toString s.pmat_num_verifications ++ ".dump")
          ("bad-verification-" ++ toString s.pmat_num_verifications ++ ".stderr")
          ("bad-verification-" ++ toString s.pmat_num_verifications ++ ".stdout"))
      else
        ({ s with pmat_num_bad_verifications := s.pmat_num_bad_verifications + 1 },
          .copiedFiles (copy_files s "bad"))
    | .signaled =>
      ({ s with pmat_num_bad_verifications := s.pmat_num_bad_verifications + 1 },
        .copiedFiles (copy_files s "bad.coredump"))
    | .weird =>
      ({ s with pmat_num_bad_verifications := s.pmat_num_bad_verifications + 1 },
        .copiedFiles (copy_files s "bad.weird"))

/-! ### Frame lemmas: which parts of the state each helper touches -/

lemma write_to_file_cache (s : PmatState) (w : PmatWriteBufferEntry) :
    (write_to_file s w).pmat_cache_entries = s.pmat_cache_entries := rfl

lemma write_to_file_wb (s : PmatState) (w : PmatWriteBufferEntry) :
    (write_to_file s w).pmat_write_buffer_entries = s.pmat_write_buffer_entries := rfl

lemma drainEntry_cache (s : PmatState) (w : PmatWriteBufferEntry) :
    (drainEntry s w).pmat_cache_entries = s.pmat_cache_entries := rfl

lemma drainEntry_files (s : PmatState) (w : PmatWriteBufferEntry) :
    (drainEntry s w).pmat_registered_files = filesAfterWrite s.pmat_registered_files w := rfl

lemma drainEntry_wb (s : PmatState) (w : PmatWriteBufferEntry) :
    (drainEntry s w).pmat_write_buffer_entries
      = removeWB s.pmat_write_buffer_entries w.entry.addr := rfl

lemma foldl_drainEntry_cache (ds : List PmatWriteBufferEntry) :
    ∀ s : PmatState, (ds.foldl drainEntry s).pmat_cache_entries = s.pmat_cache_entries := by
  induction ds with
  | nil => intro s; rfl
  | cons d ds ih => intro s; rw [List.foldl_cons, ih, drainEntry_cache]

lemma foldl_drainEntry_files (ds : List PmatWriteBufferEntry) :
    ∀ s : PmatState, (ds.foldl drainEntry s).pmat_registered_files
      = ds.foldl filesAfterWrite s.pmat_registered_files := by
  induction ds with
  | nil => intro s; rfl
  | cons d ds ih => intro s; rw [List.foldl_cons, ih, drainEntry_files, List.foldl_cons]

lemma foldl_drainEntry_wb (ds : List PmatWriteBufferEntry) :
    ∀ s : PmatState, (ds.foldl drainEntry s).pmat_write_buffer_entries
      = ds.foldl (fun l d => removeWB l d.entry.addr) s.pmat_write_buffer_entries := by
  induction ds with
  | nil => intro s; rfl
  | cons d ds ih => intro s; rw [List.foldl_cons, ih, drainEntry_wb, List.foldl_cons]

lemma selectVictims_aux {α : Type} (rand : Nat → Nat) (p : Nat → Bool) (es : List α) :
    ∀ (acc : List α) (s : PmatState),
      (es.foldl
        (fun acc e =>
          let d := draw rand acc.2
          (if p d.1 then acc.1 ++ [e] else acc.1, d.2)) (acc, s)).2
        = { s with randCtr := s.randCtr + es.length } := by
  induction es with
  | nil => intro acc s; rfl
  | cons e es ih =>
    intro acc s
    rw [List.foldl_cons]
    show (es.foldl _ (_, { s with randCtr := s.randCtr + 1 })).2 = _
    rw [ih]
    simp [Nat.add_comm, Nat.add_assoc, Nat.add_left_comm, List.length_cons]

lemma selectVictims_snd {α : Type} (rand : Nat → Nat) (p : Nat → Bool)
    (s : PmatState) (es : List α) :
    (selectVictims rand p s es).2 = { s with randCtr := s.randCtr + es.length } := by
  unfold selectVictims
  exact selectVictims_aux rand p es [] s

lemma maybe_simulate_crash_cache (rand : Nat → Nat) (s : PmatState) :
    (maybe_simulate_crash rand s).pmat_cache_entries = s.pmat_cache_entries := by
  unfold maybe_simulate_crash
  dsimp only
  split <;> rfl

lemma maybe_simulate_crash_wb (rand : Nat → Nat) (s : PmatState) :
    (maybe_simulate_crash rand s).pmat_write_buffer_entries = s.pmat_write_buffer_entries := by
  unfold maybe_simulate_crash
  dsimp only
  split <;> rfl

lemma maybe_simulate_crash_files (rand : Nat → Nat) (s : PmatState) :
    (maybe_simulate_crash rand s).pmat_registered_files = s.pmat_registered_files := by
  unfold maybe_simulate_crash
  dsimp only
  split <;> rfl

lemma wbCollapse_cache (s : PmatState) (a : Nat) :
    (wbCollapse s a).pmat_cache_entries = s.pmat_cache_entries := by
  unfold wbCollapse
  cases lookupWB s.pmat_write_buffer_entries a <;> rfl

lemma wbEvict_cache (cfg : Config) (rand : Nat → Nat) (s : PmatState) :
    (wbEvict cfg rand s).pmat_cache_entries = s.pmat_cache_entries := by
  unfold wbEvict
  dsimp only
  split
  · rw [foldl_drainEntry_cache, selectVictims_snd]
  · rfl

/-- The cache effect of `do_writeback` is exactly the removal of the
written-back line; the collapse branch and the eviction loop only touch the
write buffer and the backing files. -/
lemma do_writeback_cache (cfg : Config) (rand : Nat → Nat) (tid : Nat)
    (s : PmatState) (e : PmatCacheEntry) :
    (do_writeback cfg rand tid s e).pmat_cache_entries
      = removeCacheEntry s.pmat_cache_entries e.addr := by
  unfold do_writeback
  dsimp only
  rw [wbEvict_cache, wbCollapse_cache]


/-! ### Clean bytes of cache entries are zero (the amended C1 invariant) -/

/-- Bit `i` (for `i < 64`) of the dirty mask of a store is set exactly on
the byte range the store writes. -/
lemma testBit_dirtyMask (size so i : Nat) (hi : i < 64) :
    (dirtyMask size so).testBit i = (decide (so ≤ i) && decide (i < so + size)) := by
  unfold dirtyMask
  rw [Nat.testBit_mod_two_pow, Nat.testBit_shiftLeft, Nat.testBit_two_pow_sub_one]
  by_cases h1 : so ≤ i
  · have h2 : (i ≥ so) = True := by simp [h1]
    by_cases h3 : i < so + size
    · have : i - so < size := by omega
      simp [hi, h1, h3, this, ge_iff_le]
    · have : ¬ (i - so < size) := by omega
      simp [hi, h1, h3, this, ge_iff_le]
  · simp [hi, h1, ge_iff_le]

/-- A cache entry is "clean-zero" when every byte of the 64-byte line whose
dirty bit is clear is zero. -/
def CleanZeroEntry (e : PmatCacheEntry) : Prop :=
  ∀ i, i < CACHELINE_SIZE → e.dirtyBits.testBit i = false → e.data i = 0

def CleanZeroCache (cs : List PmatCacheEntry) : Prop :=
  ∀ e ∈ cs, CleanZeroEntry e

lemma cleanZeroEntry_store (so size value : Nat) (e : PmatCacheEntry)
    (h : CleanZeroEntry e) : CleanZeroEntry (storeIntoEntry so size value e) := by
  intro i hi hbit
  unfold storeIntoEntry at hbit ⊢
  dsimp only at hbit ⊢
  rw [Nat.testBit_or, Bool.or_eq_false_iff] at hbit
  obtain ⟨hb1, hb2⟩ := hbit
  rw [testBit_dirtyMask size so i hi, Bool.and_eq_false_iff] at hb2
  have : ¬ (so ≤ i ∧ i < so + size) := by
    rcases hb2 with h2 | h2 <;> simp at h2 <;> omega
  rw [if_neg this]
  exact h i hi hb1

lemma cleanZeroEntry_fresh (line so size value : Nat) :
    CleanZeroEntry (freshEntry line so size value) := by
  intro i hi hbit
  unfold freshEntry at hbit ⊢
  dsimp only at hbit ⊢
  rw [testBit_dirtyMask size so i hi, Bool.and_eq_false_iff] at hbit
  have : ¬ (so ≤ i ∧ i < so + size) := by
    rcases hbit with h2 | h2 <;> simp at h2 <;> omega
  rw [if_neg this]

lemma cleanZeroCache_filter (p : PmatCacheEntry → Bool) (cs : List PmatCacheEntry)
    (h : CleanZeroCache cs) : CleanZeroCache (cs.filter p) := by
  intro e he
  exact h e (List.mem_filter.mp he).1

lemma cleanZeroCache_update (cs : List PmatCacheEntry) (a : Nat)
    (f : PmatCacheEntry → PmatCacheEntry)
    (hf : ∀ e, CleanZeroEntry e → CleanZeroEntry (f e))
    (h : CleanZeroCache cs) : CleanZeroCache (updateCacheEntry cs a f) := by
  induction cs with
  | nil => intro e he; cases he
  | cons c cs ih =>
    intro e he
    unfold updateCacheEntry at he
    by_cases hc : c.addr = a
    · rw [if_pos hc] at he
      rcases List.mem_cons.mp he with he | he
      · rw [he]; exact hf c (h c (List.mem_cons_self c cs))
      · exact h e (List.mem_cons_of_mem c he)
    · rw [if_neg hc] at he
      rcases List.mem_cons.mp he with he | he
      · rw [he]; exact h c (List.mem_cons_self c cs)
      · exact ih (fun x hx => h x (List.mem_cons_of_mem c hx)) e he

lemma cleanZeroCache_foldl_writeback (cfg : Config) (rand : Nat → Nat) (tid : Nat)
    (vs : List PmatCacheEntry) :
    ∀ s : PmatState, CleanZeroCache s.pmat_cache_entries →
      CleanZeroCache
        ((vs.foldl (fun st e => do_writeback cfg rand tid st e) s).pmat_cache_entries) := by
  induction vs with
  | nil => intro s h; exact h
  | cons v vs ih =>
    intro s h
    rw [List.foldl_cons]
    apply ih
    rw [do_writeback_cache]
    exact cleanZeroCache_filter _ _ h

lemma cleanZeroCache_cacheEvict (cfg : Config) (rand : Nat → Nat) (tid : Nat)
    (s : PmatState) (h : CleanZeroCache s.pmat_cache_entries) :
    CleanZeroCache ((cacheEvict cfg rand tid s).pmat_cache_entries) := by
  unfold cacheEvict
  dsimp only
  split
  · apply cleanZeroCache_foldl_writeback
    rw [selectVictims_snd]
    exact h
  · exact h

lemma cleanZeroCache_store (cfg : Config) (rand : Nat → Nat)
    (tid addr size value : Nat) (s : PmatState)
    (h : CleanZeroCache s.pmat_cache_entries) :
    CleanZeroCache ((trace_pmem_store cfg rand tid addr size value s).pmat_cache_entries) := by
  unfold trace_pmem_store
  dsimp only
  split
  · exact h
  · split
    · -- some branch: in-place update
      apply cleanZeroCache_update
      · exact fun e he => cleanZeroEntry_store _ _ _ e he
      · exact h
    · -- none branch: fresh entry, eviction, crash check
      rw [maybe_simulate_crash_cache]
      apply cleanZeroCache_cacheEvict
      intro e he
      rcases List.mem_cons.mp he with he | he
      · rw [he]; exact cleanZeroEntry_fresh _ _ _ _
      · exact h e he

/-- The cache effect of `do_flush`: exactly the line containing `base` is
removed (no-op removal when it is not cached). -/
lemma do_flush_cache (cfg : Config) (rand : Nat → Nat) (tid base size : Nat)
    (s : PmatState) :
    (do_flush cfg rand tid base size s).pmat_cache_entries
      = removeCacheEntry s.pmat_cache_entries (TRIM_CACHELINE base) := by
  unfold do_flush
  cases h : lookupCacheEntry s.pmat_cache_entries (TRIM_CACHELINE base) with
  | none =>
    unfold lookupCacheEntry at h
    rw [List.find?_eq_none] at h
    unfold removeCacheEntry
    rw [eq_comm, List.filter_eq_self]
    intro e he
    have := h e he
    simp only [beq_iff_eq] at this
    simp [bne_iff_ne, this]
  | some e =>
    rw [do_writeback_cache]
    unfold lookupCacheEntry at h
    have := List.find?_some h
    simp only [beq_iff_eq] at this
    rw [this]

lemma do_fence_inner_cache (tid : Nat) (s : PmatState) :
    (do_fence_inner tid s).pmat_cache_entries = s.pmat_cache_entries := by
  unfold do_fence_inner
  split
  · rfl
  · rw [foldl_drainEntry_cache]

lemma cleanZeroCache_stepOp (cfg : Config) (rand : Nat → Nat) (s : PmatState)
    (op : Op) (h : CleanZeroCache s.pmat_cache_entries) :
    CleanZeroCache ((stepOp cfg rand s op).pmat_cache_entries) := by
  cases op with
  | opStore tid addr size value => exact cleanZeroCache_store cfg rand tid addr size value s h
  | opFlush tid base size =>
    show CleanZeroCache ((maybe_simulate_crash rand (do_flush cfg rand tid base size s)).pmat_cache_entries)
    rw [maybe_simulate_crash_cache, do_flush_cache]
    exact cleanZeroCache_filter _ _ h
  | opFlushFence tid addr =>
    show CleanZeroCache ((trace_pmem_flush_fence cfg rand tid addr s).pmat_cache_entries)
    unfold trace_pmem_flush_fence
    rw [maybe_simulate_crash_cache, do_fence_inner_cache, do_flush_cache]
    exact cleanZeroCache_filter _ _ h
  | opFence tid =>
    show CleanZeroCache ((do_fence rand tid s).pmat_cache_entries)
    unfold do_fence
    rw [maybe_simulate_crash_cache, do_fence_inner_cache, maybe_simulate_crash_cache]
    exact h
  | opRegister nm addr size =>
    show CleanZeroCache ((pmatRegister s (some nm) addr size).pmat_cache_entries)
    unfold pmatRegister
    dsimp only
    split_ifs <;> exact h
  | opRegisterNull addr size => exact h
  | opUnregisterByName nm => exact h
  | opUnregisterByAddr a => exact h
  | opTransient a sz =>
    show CleanZeroCache ((pmatTransient s a sz).pmat_cache_entries)
    unfold pmatTransient
    dsimp only
    split_ifs <;> exact h
  | opCrashEnable => exact h
  | opCrashDisable => exact h

/-- Every reachable state has a clean-zero cache. -/
theorem cleanZeroCache_run (cfg : Config) (rand : Nat → Nat) (ops : List Op) :
    CleanZeroCache (run cfg rand ops).pmat_cache_entries := by
  suffices h : ∀ (l : List Op) (s : PmatState), CleanZeroCache s.pmat_cache_entries →
      CleanZeroCache ((l.foldl (stepOp cfg rand) s).pmat_cache_entries) by
    exact h ops initState (fun e he => absurd he (List.not_mem_nil e))
  intro l
  induction l with
  | nil => intro s h; exact h
  | cons op l ih =>
    intro s h
    rw [List.foldl_cons]
    exact ih _ (cleanZeroCache_stepOp cfg rand s op h)


/-! ### Concrete scenarios used by the claim theorems -/

/-- The all-zeros random oracle: cache eviction then picks no victim
(`0 % 2` is falsy) while write-buffer eviction picks every entry
(`0 % 10 == 0`). -/
def randZero : Nat → Nat := fun _ => 0

def cfgDefault : Config := ⟨8, 8⟩

/-- A configuration whose cache capacity is zero, so every entry-creating
store runs the eviction scan. -/
def cfgZeroCache : Config := ⟨0, 8⟩

/-- A configuration whose write buffer holds a single entry before evicting. -/
def cfgSmallWB : Config := ⟨8, 1⟩

/-- Register a 128-byte region at 0; persist the line at 0 (store, flush,
fence); then store to bytes 8..15 of the same line. -/
def c1Ops : List Op :=
  [.opRegister "f" 0 128, .opStore 1 0 8 0x1122334455667788,
   .opFlush 1 0 64, .opFence 1, .opStore 1 8 8 0x99]

/-- Register; store a line; flush it (line becomes FLUSHED, held in the
write buffer); store to the same line again. -/
def c2Ops : List Op :=
  [.opRegister "f" 0 128, .opStore 1 0 8 5, .opFlush 1 0 64, .opStore 1 0 8 7]

/-- Register; two stores to the same line (the second hits the existing
cache entry). -/
def c5Ops : List Op :=
  [.opRegister "f" 0 128, .opStore 1 0 8 5, .opStore 1 0 8 7]

/-- Register a 128-byte region; store 8 bytes at offset 60, crossing the
line boundary at 64. -/
def c6Ops : List Op :=
  [.opRegister "f" 0 192, .opStore 1 60 8 0x1122334455667788]

/-- Register a 192-byte region (lines 0, 64, 128); put line 128 into the
write buffer (store + flush); store to line 0. -/
def c10Ops : List Op :=
  [.opRegister "f" 0 192, .opStore 1 128 8 5, .opFlush 1 128 64, .opStore 1 0 8 7]

def c10State : PmatState := run cfgSmallWB randZero c10Ops

/-! ### Path characterizations of `trace_pmem_store` -/

/-- A tracked store to an uncached line: the fresh entry is inserted, then
the capacity check and the crash check run. -/
lemma trace_pmem_store_create (cfg : Config) (rand : Nat → Nat)
    (tid addr size value : Nat) (s : PmatState)
    (hacc : is_pmem_access s addr size = true)
    (hnc : lookupCacheEntry s.pmat_cache_entries (TRIM_CACHELINE addr) = none) :
    trace_pmem_store cfg rand tid addr size value s
      = maybe_simulate_crash rand (cacheEvict cfg rand tid
          { s with warnings := s.warnings + storeWarnings addr size,
                   pmat_cache_entries :=
                     freshEntry (TRIM_CACHELINE addr) (OFFSET_CACHELINE addr) size value
                       :: s.pmat_cache_entries }) := by
  have h1 : (!is_pmem_access s addr size) = false := by rw [hacc]; rfl
  unfold trace_pmem_store
  rw [h1]
  simp only [Bool.false_eq_true, if_false]
  rw [hnc]

/-- A tracked store to a cached line: the entry is updated in place and the
function returns — no capacity check, no crash check. -/
lemma trace_pmem_store_update (cfg : Config) (rand : Nat → Nat)
    (tid addr size value : Nat) (s : PmatState) (e : PmatCacheEntry)
    (hacc : is_pmem_access s addr size = true)
    (hc : lookupCacheEntry s.pmat_cache_entries (TRIM_CACHELINE addr) = some e) :
    trace_pmem_store cfg rand tid addr size value s
      = { s with warnings := s.warnings + storeWarnings addr size,
                 pmat_cache_entries :=
                   updateCacheEntry s.pmat_cache_entries (TRIM_CACHELINE addr)
                     (storeIntoEntry (OFFSET_CACHELINE addr) size value) } := by
  have h1 : (!is_pmem_access s addr size) = false := by rw [hacc]; rfl
  unfold trace_pmem_store
  rw [h1]
  simp only [Bool.false_eq_true, if_false]
  rw [hc]

/-! ### C1: dirty-bit integrity -/

/-- The dirty-bit-integrity invariant exactly as claim C1 states it: every
byte of a cache entry whose dirty bit is clear equals the byte at the same
offset of the same cache line in the containing region's backing file. -/
def dirtyIntegrity (s : PmatState) : Prop :=
  ∀ e ∈ s.pmat_cache_entries, ∀ i < CACHELINE_SIZE,
    e.dirtyBits.testBit i = false →
    ∀ f ∈ s.pmat_registered_files, fileContainsAddr f e.addr = true →
      f.content (e.addr - f.addr + i) = e.data i

instance (s : PmatState) : Decidable (dirtyIntegrity s) := by
  unfold dirtyIntegrity; infer_instance

/-- C1 is false on the code: after `store(0,8,X); flush(0); fence;
store(8,8,Y)` the line's cache entry was re-created zero-filled (the code
never reads the backing file into a new entry), so its clean byte 0 is `0`
while the backing file holds `0x88` there.  `c1Ops` is exactly this
reachable trace. -/
theorem c1_dirty_integrity_counterexample :
    ¬ dirtyIntegrity (run cfgDefault randZero c1Ops) := by decide

/-- C1 (amended): in every reachable state, every byte of a cache entry
whose dirty bit is clear is zero — entries are created zero-filled from
`VG_(memset)` and only store-written (dirty-marked) bytes ever change, so
clean bytes need not match the backing file once the file has been written
at those offsets. -/
theorem c1_clean_bytes_zero (cfg : Config) (rand : Nat → Nat) (ops : List Op)
    (j i : Nat) (hi : i < CACHELINE_SIZE)
    (hbit : ((run cfg rand ops).pmat_cache_entries.getD j default).dirtyBits.testBit i
      = false) :
    ((run cfg rand ops).pmat_cache_entries.getD j default).data i = 0 := by
  by_cases hj : j < (run cfg rand ops).pmat_cache_entries.length
  · have hm : (run cfg rand ops).pmat_cache_entries.getD j default
        ∈ (run cfg rand ops).pmat_cache_entries := by
      rw [List.getD_eq_getElem _ _ hj]
      exact List.getElem_mem hj
    exact cleanZeroCache_run cfg rand ops _ hm i hi hbit
  · rw [List.getD_eq_default _ _ (Nat.le_of_not_lt hj)]
    rfl

theorem c1_clean_bytes_zero_witness :
    ((run cfgDefault randZero c1Ops).pmat_cache_entries.getD 0 default).data 0 = 0 :=
  c1_clean_bytes_zero cfgDefault randZero c1Ops 0 0 (by decide) (by decide)

/-! ### C2: cache / write-buffer disjointness -/

/-- Some cache-line address is present in both the cache and the write
buffer (the negation of the disjointness that claim C2 asserts). -/
def cacheWBShared (s : PmatState) : Bool :=
  s.pmat_cache_entries.any
    (fun e => s.pmat_write_buffer_entries.any (fun w => w.entry.addr == e.addr))

/-- C2 is false on the code: in the reachable state reached by
`register; store(0); flush(0); store(0)` — a store to a line in the FLUSHED
state — line 0 has both a (new, DIRTY) cache entry and the old FLUSHED
write-buffer entry. -/
theorem c2_disjointness_counterexample :
    cacheWBShared (run cfgDefault randZero c2Ops) = true := by decide

/-- C2 (amended): a store to a line that is FLUSHED (present in the write
buffer, absent from the cache) creates a new DIRTY cache entry for that
line while leaving the write buffer untouched, so the address is then in
both structures; the old FLUSHED entry stays pending.  (The hypothesis on
`cacheMax` keeps the new entry from being immediately evicted again.) -/
theorem c2_store_to_flushed_line (cfg : Config) (rand : Nat → Nat)
    (tid addr size value : Nat) (s : PmatState)
    (hwb : (lookupWB s.pmat_write_buffer_entries (TRIM_CACHELINE addr)).isSome = true)
    (hnc : (lookupCacheEntry s.pmat_cache_entries (TRIM_CACHELINE addr)).isNone = true)
    (hacc : is_pmem_access s addr size = true)
    (hcap : s.pmat_cache_entries.length + 1 ≤ cfg.cacheMax) :
    (lookupCacheEntry
        (trace_pmem_store cfg rand tid addr size value s).pmat_cache_entries
        (TRIM_CACHELINE addr)).isSome = true
    ∧ (trace_pmem_store cfg rand tid addr size value s).pmat_write_buffer_entries
        = s.pmat_write_buffer_entries := by
  rw [Option.isNone_iff_eq_none] at hnc
  rw [trace_pmem_store_create cfg rand tid addr size value s hacc hnc]
  have hlen : ¬ ((freshEntry (TRIM_CACHELINE addr) (OFFSET_CACHELINE addr) size value
      :: s.pmat_cache_entries).length > cfg.cacheMax) := by
    simp only [List.length_cons]
    omega
  constructor
  · rw [maybe_simulate_crash_cache]
    unfold cacheEvict
    dsimp only
    rw [if_neg hlen]
    unfold lookupCacheEntry
    simp [freshEntry]
  · rw [maybe_simulate_crash_wb]
    unfold cacheEvict
    dsimp only
    rw [if_neg hlen]

theorem c2_store_to_flushed_line_witness :
    (lookupCacheEntry
        (trace_pmem_store cfgDefault randZero 1 0 8 7
          (run cfgDefault randZero [.opRegister "f" 0 128, .opStore 1 0 8 5,
            .opFlush 1 0 64])).pmat_cache_entries 0).isSome = true
    ∧ (trace_pmem_store cfgDefault randZero 1 0 8 7
          (run cfgDefault randZero [.opRegister "f" 0 128, .opStore 1 0 8 5,
            .opFlush 1 0 64])).pmat_write_buffer_entries
        = (run cfgDefault randZero [.opRegister "f" 0 128, .opStore 1 0 8 5,
            .opFlush 1 0 64]).pmat_write_buffer_entries :=
  c2_store_to_flushed_line cfgDefault randZero 1 0 8 7 _
    (by decide) (by decide) (by decide) (by decide)

/-! ### C5: capacity check and crash check on every store -/

/-- C5 is false on the code: with `cacheMax = 0`, after `register` and two
tracked stores to the same line the ghost crash-check counter is 1, not 2 —
the second store hit the existing entry and returned without invoking
`maybe_simulate_crash` — and the cache still holds 1 entry (> cacheMax)
with an empty write buffer, i.e. the second store also skipped the
capacity-eviction scan. -/
theorem c5_existing_entry_counterexample :
    (run cfgZeroCache randZero c5Ops).crashChecks = 1
    ∧ (run cfgZeroCache randZero c5Ops).pmat_cache_entries.length = 1
    ∧ cfgZeroCache.cacheMax = 0
    ∧ (run cfgZeroCache randZero c5Ops).pmat_write_buffer_entries.length = 0 := by
  decide

/-- C5 (amended): only the path of `on_store` that creates a new cache entry
performs the capacity check and then invokes `maybe_crash`; a store whose
target line already has a cache entry updates that entry in place and
returns immediately — no eviction (write buffer and files untouched even
when the cache exceeds `CacheMax`) and no crash check (the ghost
`crashChecks` counter is unchanged). -/
theorem c5_existing_entry_fast_path (cfg : Config) (rand : Nat → Nat)
    (tid addr size value : Nat) (s : PmatState) (e : PmatCacheEntry)
    (hacc : is_pmem_access s addr size = true)
    (hc : lookupCacheEntry s.pmat_cache_entries (TRIM_CACHELINE addr) = some e) :
    (trace_pmem_store cfg rand tid addr size value s).pmat_cache_entries
      = updateCacheEntry s.pmat_cache_entries (TRIM_CACHELINE addr)
          (storeIntoEntry (OFFSET_CACHELINE addr) size value)
    ∧ (trace_pmem_store cfg rand tid addr size value s).pmat_write_buffer_entries
        = s.pmat_write_buffer_entries
    ∧ (trace_pmem_store cfg rand tid addr size value s).pmat_registered_files
        = s.pmat_registered_files
    ∧ (trace_pmem_store cfg rand tid addr size value s).crashChecks = s.crashChecks := by
  rw [trace_pmem_store_update cfg rand tid addr size value s e hacc hc]
  exact ⟨rfl, rfl, rfl, rfl⟩

theorem c5_existing_entry_fast_path_witness :
    (trace_pmem_store cfgZeroCache randZero 1 0 8 7
        (run cfgZeroCache randZero [.opRegister "f" 0 128, .opStore 1 0 8 5])).crashChecks
      = (run cfgZeroCache randZero [.opRegister "f" 0 128, .opStore 1 0 8 5]).crashChecks :=
  (c5_existing_entry_fast_path cfgZeroCache randZero 1 0 8 7 _
      ((run cfgZeroCache randZero
          [.opRegister "f" 0 128, .opStore 1 0 8 5]).pmat_cache_entries.getD 0 default)
      (by decide) (by rfl)).2.2.2

/-! ### C6: stores crossing a cache-line boundary -/

/-- C6: a warning is emitted for the 8-byte store at offset 60 of line 0
(two warnings, in fact), but the store is *not* limited to the leading part:
the unclamped `memcpy` writes the value's bytes 4..7 at indices 64..67,
past the 64-byte line buffer (data outside the line's `L` bytes is
modified — in C this is a heap overflow past the allocation).  Only the
dirty mask is truncated at bit 63. -/
theorem c6_cross_line_store_overflow :
    (run cfgDefault randZero c6Ops).warnings = 2
    ∧ ((run cfgDefault randZero c6Ops).pmat_cache_entries.getD 0 default).data 64 = 0x44
    ∧ ((run cfgDefault randZero c6Ops).pmat_cache_entries.getD 0 default).data 67 = 0x11
    ∧ ((run cfgDefault randZero c6Ops).pmat_cache_entries.getD 0 default).dirtyBits.testBit 63
        = true
    ∧ ((run cfgDefault randZero c6Ops).pmat_cache_entries.getD 0 default).dirtyBits.testBit 64
        = false := by
  decide

/-! ### C8: register creates the backing file -/

/-- C8 is false on the code: the backing file is opened with mode `0666`,
which grants read-write to user, group *and* others — not "user and group
only" (which would be `0660`). -/
theorem c8_mode_counterexample :
    ((pmatRegister initState (some "f") 0 128).pmat_registered_files.getD 0 default).mode
      = 0o666
    ∧ (0o666 : Nat) % 8 = 6
    ∧ (0o666 : Nat) ≠ 0o660 := by decide

/-- C8 (amended): a register request with a non-null name and an L-aligned
base prepends a region whose backing file is created/truncated to exactly
`size` zero bytes with permission mode `0666` (read-write for user, group,
and others). -/
theorem c8_register_creates_file (s : PmatState) (nm : String) (addr size : Nat)
    (h : TRIM_CACHELINE addr = addr) :
    (pmatRegister s (some nm) addr size).pmat_registered_files
      = ⟨nm, addr, size, 0o666, fun _ => 0⟩ :: s.pmat_registered_files := by
  unfold pmatRegister
  dsimp only
  rw [if_neg (by simp [h])]

theorem c8_register_creates_file_witness :
    (pmatRegister initState (some "f") 0 128).pmat_registered_files
      = ⟨"f", 0, 128, 0o666, fun _ => 0⟩ :: initState.pmat_registered_files :=
  c8_register_creates_file initState "f" 0 128 (by decide)

/-! ### C9: transient ranges -/

/-- C9 is false on the code: with *no* regions registered, a
`PMAT_TRANSIENT(100, 8)` request is **not** a silent no-op — the
region-membership check is skipped entirely and the range is inserted into
the transient table. -/
theorem c9_transient_no_region_counterexample :
    initState.pmat_registered_files.length = 0
    ∧ (pmatTransient initState 100 8).pmat_transient_addresses = [(100, 8)] := by decide

/-- C9 (amended): a `PMAT_TRANSIENT(addr, size)` request adds the range when
the address lies inside a registered region *or when no region is
registered at all*; only when regions exist and the address lies in none of
them is the request a silent no-op. -/
theorem c9_transient_conditions (s : PmatState) (a sz : Nat) :
    (s.pmat_registered_files.length ≠ 0 → lookupFileByAddr s a = none →
      (pmatTransient s a sz).pmat_transient_addresses = s.pmat_transient_addresses)
    ∧ ((s.pmat_registered_files.length = 0 ∨ (lookupFileByAddr s a).isSome = true) →
      (a, sz) ∈ (pmatTransient s a sz).pmat_transient_addresses) := by
  constructor
  · intro hlen hnone
    unfold pmatTransient
    dsimp only
    rw [if_pos (by omega : s.pmat_registered_files.length > 0), hnone]
    rfl
  · intro hor
    unfold pmatTransient
    dsimp only
    have hproceed :
        (if s.pmat_registered_files.length > 0 then (lookupFileByAddr s a).isSome
         else true) = true := by
      rcases hor with h | h
      · rw [if_neg (by omega)]
      · split
        · exact h
        · rfl
    rw [hproceed]
    simp only [if_true]
    split
    · assumption
    · exact List.mem_cons_self _ _

theorem c9_transient_conditions_witness :
    (8, 4) ∈ (pmatTransient (pmatRegister initState (some "f") 0 128) 8 4).pmat_transient_addresses :=
  (c9_transient_conditions (pmatRegister initState (some "f") 0 128) 8 4).2
    (Or.inr (by decide))

/-! ### C10: the flush frame -/

/-- C10 is false on the code: in the reachable state `c10State` (write
buffer holds line 128, `WbMax = 1`), the call `do_flush(0, 128)` — whose
range [0, 128) does not even touch line 128 — triggers the write-buffer
capacity eviction, which writes line 128's pending entry to the backing
file (byte 128 changes from 0 to 5) and discards it. -/
theorem c10_flush_frame_counterexample :
    (lookupWB c10State.pmat_write_buffer_entries 128).isSome = true
    ∧ (c10State.pmat_registered_files.getD 0 default).content 128 = 0
    ∧ (lookupWB (do_flush cfgSmallWB randZero 1 0 128 c10State).pmat_write_buffer_entries
        128).isSome = false
    ∧ ((do_flush cfgSmallWB randZero 1 0 128 c10State).pmat_registered_files.getD 0
        default).content 128 = 5 := by
  decide

/-- C10 (amended): `do_flush(base, size)` ignores its `size` argument
entirely, and its cache effect is exactly the removal of the single line
containing `base` (cache entries of all other lines are unchanged); the
write buffer and the backing files, however, may change for other lines
through the capacity eviction inside `do_writeback`. -/
theorem c10_flush_size_ignored_cache_frame (cfg : Config) (rand : Nat → Nat)
    (tid base size1 size2 : Nat) (s : PmatState) :
    do_flush cfg rand tid base size1 s = do_flush cfg rand tid base size2 s
    ∧ (do_flush cfg rand tid base size1 s).pmat_cache_entries
        = removeCacheEntry s.pmat_cache_entries (TRIM_CACHELINE base) :=
  ⟨rfl, do_flush_cache cfg rand tid base size1 s⟩


/-! ### C3: fence scope -/

lemma foldl_removeWB_filter (ds : List PmatWriteBufferEntry) :
    ∀ l : List PmatWriteBufferEntry,
      ds.foldl (fun l d => removeWB l d.entry.addr) l
        = l.filter (fun w => decide (w.entry.addr ∉ ds.map (fun d => d.entry.addr))) := by
  induction ds with
  | nil =>
    intro l
    simp [List.filter_eq_self]
  | cons d ds ih =>
    intro l
    rw [List.foldl_cons, ih]
    unfold removeWB
    rw [List.filter_filter]
    apply List.filter_congr
    intro x _
    by_cases h1 : x.entry.addr = d.entry.addr
    · simp [h1]
    · by_cases h2 : x.entry.addr ∈ ds.map (fun d => d.entry.addr) <;>
        simp [h1, h2, bne]

/-- C3: after `_do_fence` on thread `tid`, the write buffer is exactly the
previous buffer with every entry of `tid` removed (cross-thread entries are
untouched, in order), and the backing files have absorbed — in buffer
order — the writeback of every drained entry.  The `Nodup` hypothesis is
the write buffer's OSet key invariant (one entry per line address). -/
theorem c3_fence_scope (tid : Nat) (s : PmatState)
    (hnd : (s.pmat_write_buffer_entries.map (fun w => w.entry.addr)).Nodup) :
    (do_fence_inner tid s).pmat_write_buffer_entries
      = s.pmat_write_buffer_entries.filter (fun w => w.tid != tid)
    ∧ (do_fence_inner tid s).pmat_registered_files
      = (s.pmat_write_buffer_entries.filter (fun w => w.tid == tid)).foldl
          filesAfterWrite s.pmat_registered_files := by
  unfold do_fence_inner
  by_cases hemp : s.pmat_write_buffer_entries.isEmpty
  · rw [if_pos hemp]
    have hnil : s.pmat_write_buffer_entries = [] := List.isEmpty_iff.mp hemp
    rw [hnil]
    exact ⟨rfl, rfl⟩
  · rw [if_neg hemp]
    constructor
    · rw [foldl_drainEntry_wb, foldl_removeWB_filter]
      apply List.filter_congr
      intro w hw
      by_cases ht : w.tid = tid
      · have hmem : w ∈ s.pmat_write_buffer_entries.filter (fun x => x.tid == tid) :=
          List.mem_filter.mpr ⟨hw, by simp [ht]⟩
        have haddr : w.entry.addr
            ∈ (s.pmat_write_buffer_entries.filter (fun x => x.tid == tid)).map
                (fun d => d.entry.addr) :=
          List.mem_map_of_mem _ hmem
        simp [haddr, ht]
      · have haddr : w.entry.addr
            ∉ (s.pmat_write_buffer_entries.filter (fun x => x.tid == tid)).map
                (fun d => d.entry.addr) := by
          intro hcontra
          rcases List.mem_map.mp hcontra with ⟨d, hd, hda⟩
          have hdw : d ∈ s.pmat_write_buffer_entries := (List.mem_filter.mp hd).1
          have hdt : d.tid = tid := by simpa using (List.mem_filter.mp hd).2
          have hde : d = w := List.inj_on_of_nodup_map hnd hdw hw hda
          rw [hde] at hdt
          exact ht hdt
        simp [haddr, ht]
    · rw [foldl_drainEntry_files]

theorem c3_fence_scope_witness :
    (do_fence_inner 1
        (run cfgDefault randZero [.opRegister "f" 0 128, .opStore 1 0 8 5,
          .opFlush 1 0 64])).pmat_write_buffer_entries
      = (run cfgDefault randZero [.opRegister "f" 0 128, .opStore 1 0 8 5,
          .opFlush 1 0 64]).pmat_write_buffer_entries.filter (fun w => w.tid != 1) :=
  (c3_fence_scope 1
      (run cfgDefault randZero [.opRegister "f" 0 128, .opStore 1 0 8 5,
        .opFlush 1 0 64])
      (by decide)).1


/-! ### C4: the Welford identity -/

lemma update_stats_step (n : Nat) (hn : 0 < n) (S1 S2 x : ℚ) :
    update_stats (S1 / n) (S2 - S1 ^ 2 / n) (n + 1) x
      = ((S1 + x) / ((n : ℚ) + 1), (S2 + x ^ 2) - (S1 + x) ^ 2 / ((n : ℚ) + 1)) := by
  have hn0 : (n : ℚ) ≠ 0 := Nat.cast_ne_zero.mpr hn.ne'
  have hn1 : (n : ℚ) + 1 ≠ 0 := by positivity
  unfold update_stats
  dsimp only
  have hcast : ((n + 1 : Nat) : ℚ) = (n : ℚ) + 1 := by push_cast; ring
  rw [hcast]
  refine Prod.ext ?_ ?_
  · show S1 / n + (x - S1 / n) / ((n : ℚ) + 1) = (S1 + x) / ((n : ℚ) + 1)
    field_simp
    ring
  · show S2 - S1 ^ 2 / n + (x - S1 / n) * (x - (S1 / n + (x - S1 / n) / ((n : ℚ) + 1)))
        = S2 + x ^ 2 - (S1 + x) ^ 2 / ((n : ℚ) + 1)
    field_simp
    ring

lemma welfordRun_spec (xs : List ℚ) :
    ∀ (n : Nat) (S1 S2 : ℚ), 0 < n →
      welfordRun xs (S1 / n) (S2 - S1 ^ 2 / n) n
        = ((S1 + xs.sum) / ((n : ℚ) + xs.length),
           (S2 + sumSq xs) - (S1 + xs.sum) ^ 2 / ((n : ℚ) + xs.length)) := by
  induction xs with
  | nil =>
    intro n S1 S2 hn
    unfold welfordRun
    simp [sumSq]
  | cons x xs ih =>
    intro n S1 S2 hn
    unfold welfordRun
    dsimp only
    rw [update_stats_step n hn S1 S2 x]
    have h1 : ((S1 + x) / ((n : ℚ) + 1), (S2 + x ^ 2) - (S1 + x) ^ 2 / ((n : ℚ) + 1)).1
        = (S1 + x) / ((n : ℚ) + 1) := rfl
    have h2 : ((S1 + x) / ((n : ℚ) + 1), (S2 + x ^ 2) - (S1 + x) ^ 2 / ((n : ℚ) + 1)).2
        = (S2 + x ^ 2) - (S1 + x) ^ 2 / ((n : ℚ) + 1) := rfl
    rw [h1, h2]
    have hcast : ((n + 1 : Nat) : ℚ) = (n : ℚ) + 1 := by push_cast; ring
    have := ih (n + 1) (S1 + x) (S2 + x ^ 2) (Nat.succ_pos n)
    rw [hcast] at this
    rw [this]
    have hlen : ((x :: xs).length : ℚ) = (xs.length : ℚ) + 1 := by
      push_cast [List.length_cons]
      ring
    refine Prod.ext ?_ ?_ <;> dsimp only
    · rw [List.sum_cons, hlen]
      ring_nf
    · rw [List.sum_cons, hlen]
      have : sumSq (x :: xs) = x ^ 2 + sumSq xs := by
        unfold sumSq
        rw [List.map_cons, List.sum_cons]
      rw [this]
      ring_nf

lemma sum_sq_dev (l : List ℚ) (m : ℚ) :
    (l.map (fun x => (x - m) ^ 2)).sum
      = sumSq l - 2 * m * l.sum + (l.length : ℚ) * m ^ 2 := by
  induction l with
  | nil => simp [sumSq]
  | cons y l ih =>
    rw [List.map_cons, List.sum_cons, ih, List.sum_cons]
    have h1 : sumSq (y :: l) = y ^ 2 + sumSq l := by
      unfold sumSq
      rw [List.map_cons, List.sum_cons]
    rw [h1]
    push_cast [List.length_cons]
    ring

/-- C4: starting from zeroed statistics and a zero counter, applying
`update_stats` for samples `x_1 .. x_n` — the counter being incremented
before each update, exactly as the parent branch of `simulate_crash`
does — yields a stored mean that is the arithmetic mean of the samples, and
an SSD that divided by `n` is the population variance.  `Double` is
modelled as exact rational arithmetic, so the claim's "floating-point
tolerance" is exact equality here. -/
theorem c4_welford_identity (xs : List ℚ) (h : xs ≠ []) :
    (welfordRun xs 0 0 0).1 = xs.sum / (xs.length : ℚ)
    ∧ (welfordRun xs 0 0 0).2 / (xs.length : ℚ)
        = (xs.map (fun x => (x - xs.sum / (xs.length : ℚ)) ^ 2)).sum / (xs.length : ℚ) := by
  obtain ⟨x, t, rfl⟩ := List.exists_cons_of_ne_nil h
  have hupd : update_stats 0 0 1 x = (x, 0) := by
    unfold update_stats
    norm_num
  have hstep : welfordRun (x :: t) 0 0 0 = welfordRun t x 0 1 := by
    show welfordRun t (update_stats 0 0 1 x).1 (update_stats 0 0 1 x).2 1 = welfordRun t x 0 1
    rw [hupd]
  have hspec := welfordRun_spec t 1 x (x ^ 2) one_pos
  norm_num at hspec
  rw [hstep, hspec]
  have hN : ((x :: t).length : ℚ) = (t.length : ℚ) + 1 := by
    push_cast [List.length_cons]
    ring
  have hNpos : (0 : ℚ) < (t.length : ℚ) + 1 := by positivity
  have hN0 : (t.length : ℚ) + 1 ≠ 0 := hNpos.ne'
  constructor
  · dsimp only
    rw [List.sum_cons, hN]
    ring_nf
  · dsimp only
    rw [List.sum_cons, hN]
    have hdev := sum_sq_dev (x :: t) ((x + t.sum) / ((t.length : ℚ) + 1))
    rw [List.sum_cons, hN] at hdev
    have hss : sumSq (x :: t) = x ^ 2 + sumSq t := by
      unfold sumSq
      rw [List.map_cons, List.sum_cons]
    rw [hss] at hdev
    rw [hdev]
    field_simp
    ring

theorem c4_welford_identity_witness :
    (welfordRun [1, 2, 4] 0 0 0).1 = ([1, 2, 4] : List ℚ).sum / (([1, 2, 4] : List ℚ).length : ℚ)
    ∧ (welfordRun [1, 2, 4] 0 0 0).2 / (([1, 2, 4] : List ℚ).length : ℚ)
        = (([1, 2, 4] : List ℚ).map
            (fun x => (x - ([1, 2, 4] : List ℚ).sum / (([1, 2, 4] : List ℚ).length : ℚ)) ^ 2)).sum
          / (([1, 2, 4] : List ℚ).length : ℚ) :=
  c4_welford_identity [1, 2, 4] (by decide)


/-! ### C7: verifier termination classification -/

lemma crashStatsUpdate_bad (s : PmatState) (sec : ℚ) :
    (crashStatsUpdate s sec).pmat_num_bad_verifications = s.pmat_num_bad_verifications := by
  unfold crashStatsUpdate
  dsimp only
  split <;> rfl

lemma crashStatsUpdate_numVer (s : PmatState) (sec : ℚ) :
    (crashStatsUpdate s sec).pmat_num_verifications = s.pmat_num_verifications + 1 := by
  unfold crashStatsUpdate
  dsimp only
  split <;> rfl

lemma crashStatsUpdate_files (s : PmatState) (sec : ℚ) :
    (crashStatsUpdate s sec).pmat_registered_files = s.pmat_registered_files := by
  unfold crashStatsUpdate
  dsimp only
  split <;> rfl

lemma copy_files_statsUpdate (s : PmatState) (sec : ℚ) (suffix : String) :
    copy_files (crashStatsUpdate s sec) suffix
      = s.pmat_registered_files.map (fun f =>
          (f.name, snapshotName f.name (s.pmat_num_verifications + 1) suffix)) := by
  unfold copy_files
  rw [crashStatsUpdate_files, crashStatsUpdate_numVer]

lemma simulate_crash_parent_exited_zero (s : PmatState) (sec : ℚ)
    (hv : s.pmat_verifier ≠ none) (hlen : s.pmat_registered_files.length ≠ 0) :
    simulate_crash_parent s sec (.exited 0)
      = (crashStatsUpdate s sec,
         .deletedFiles
           ("bad-verification-" ++ toString (s.pmat_num_verifications + 1) ++ ".dump")
           ("bad-verification-" ++ toString (s.pmat_num_verifications + 1) ++ ".stderr")
           ("bad-verification-" ++ toString (s.pmat_num_verifications + 1) ++ ".stdout")) := by
  unfold simulate_crash_parent
  rw [if_neg hv, if_neg hlen]
  dsimp only
  rw [if_neg (by decide : ¬ ((0 : Int) = PMAT_VERIFICATION_FAILURE
      ∨ (0 : Int) = -PMAT_VERIFICATION_FAILURE)), if_pos rfl, crashStatsUpdate_numVer]

lemma simulate_crash_parent_exited_nonzero (s : PmatState) (sec : ℚ) (st : Int)
    (hv : s.pmat_verifier ≠ none) (hlen : s.pmat_registered_files.length ≠ 0)
    (hst : st ≠ 0) :
    simulate_crash_parent s sec (.exited st)
      = ({ crashStatsUpdate s sec with
            pmat_num_bad_verifications := s.pmat_num_bad_verifications + 1 },
         .copiedFiles (s.pmat_registered_files.map (fun f =>
           (f.name, snapshotName f.name (s.pmat_num_verifications + 1) "bad")))) := by
  unfold simulate_crash_parent
  rw [if_neg hv, if_neg hlen]
  dsimp only
  by_cases hbd : st = PMAT_VERIFICATION_FAILURE ∨ st = -PMAT_VERIFICATION_FAILURE
  · rw [if_pos hbd, crashStatsUpdate_bad, copy_files_statsUpdate]
  · rw [if_neg hbd, if_neg hst, crashStatsUpdate_bad, copy_files_statsUpdate]

lemma simulate_crash_parent_signaled (s : PmatState) (sec : ℚ)
    (hv : s.pmat_verifier ≠ none) (hlen : s.pmat_registered_files.length ≠ 0) :
    simulate_crash_parent s sec .signaled
      = ({ crashStatsUpdate s sec with
            pmat_num_bad_verifications := s.pmat_num_bad_verifications + 1 },
         .copiedFiles (s.pmat_registered_files.map (fun f =>
           (f.name,
            snapshotName f.name (s.pmat_num_verifications + 1) "bad.coredump")))) := by
  unfold simulate_crash_parent
  rw [if_neg hv, if_neg hlen]
  dsimp only
  rw [crashStatsUpdate_bad, copy_files_statsUpdate]

/-- C7: classification of the verifier's termination by the parent branch of
`simulate_crash`, for a state with a configured verifier and at least one
registered region, writing `k` for the verification count before the call:
exit status `0` deletes the three per-attempt files
`bad-verification-<k+1>.{dump,stderr,stdout}` and leaves the bad count
unchanged; any non-zero exit status (`0xBD`, `-0xBD`, and all others alike)
increments the bad count and copies every registered file to
`<name>.<k+1>.bad`; termination by signal increments the bad count and
copies every registered file to `<name>.<k+1>.bad.coredump`. -/
theorem c7_verifier_classification (s : PmatState) (sec : ℚ) (st : Int)
    (hv : s.pmat_verifier ≠ none) (hr : s.pmat_registered_files.length ≠ 0) :
    ((simulate_crash_parent s sec (.exited 0)).2
        = CrashEffect.deletedFiles
            ("bad-verification-" ++ toString (s.pmat_num_verifications + 1) ++ ".dump")
            ("bad-verification-" ++ toString (s.pmat_num_verifications + 1) ++ ".stderr")
            ("bad-verification-" ++ toString (s.pmat_num_verifications + 1) ++ ".stdout")
      ∧ (simulate_crash_parent s sec (.exited 0)).1.pmat_num_bad_verifications
          = s.pmat_num_bad_verifications
      ∧ (simulate_crash_parent s sec (.exited 0)).1.pmat_num_verifications
          = s.pmat_num_verifications + 1)
    ∧ (st ≠ 0 →
        (simulate_crash_parent s sec (.exited st)).1.pmat_num_bad_verifications
            = s.pmat_num_bad_verifications + 1
        ∧ (simulate_crash_parent s sec (.exited st)).2
            = CrashEffect.copiedFiles
                (s.pmat_registered_files.map (fun f =>
                  (f.name, snapshotName f.name (s.pmat_num_verifications + 1) "bad"))))
    ∧ ((simulate_crash_parent s sec .signaled).1.pmat_num_bad_verifications
          = s.pmat_num_bad_verifications + 1
      ∧ (simulate_crash_parent s sec .signaled).2
          = CrashEffect.copiedFiles
              (s.pmat_registered_files.map (fun f =>
                (f.name,
                 snapshotName f.name (s.pmat_num_verifications + 1) "bad.coredump")))) := by
  have hlen : s.pmat_registered_files.length ≠ 0 := hr
  refine ⟨⟨?_, ?_, ?_⟩, fun hst => ⟨?_, ?_⟩, ?_, ?_⟩
  · rw [simulate_crash_parent_exited_zero s sec hv hlen]
  · rw [simulate_crash_parent_exited_zero s sec hv hlen]
    exact crashStatsUpdate_bad s sec
  · rw [simulate_crash_parent_exited_zero s sec hv hlen]
    exact crashStatsUpdate_numVer s sec
  · rw [simulate_crash_parent_exited_nonzero s sec st hv hlen hst]
  · rw [simulate_crash_parent_exited_nonzero s sec st hv hlen hst]
  · rw [simulate_crash_parent_signaled s sec hv hlen]
  · rw [simulate_crash_parent_signaled s sec hv hlen]

theorem c7_verifier_classification_witness :
    (simulate_crash_parent
        (pmatRegister { initState with pmat_verifier := some "v" } (some "f") 0 128)
        1 (.exited 7)).1.pmat_num_bad_verifications
      = (pmatRegister { initState with pmat_verifier := some "v" }
          (some "f") 0 128).pmat_num_bad_verifications + 1 :=
  ((c7_verifier_classification
      (pmatRegister { initState with pmat_verifier := some "v" } (some "f") 0 128)
      1 7 (by decide) (by decide)).2.1 (by decide)).1

end Pmat
